import Mathlib

/-!
Verification of the `asd-examples` repository: an AXI-Stream skid buffer
(elastic two-slot handshake buffer) and a parameterizable synchronous counter.
The repository ships cocotb testbenches for both designs; the step semantics of
the designs themselves are given by the design document (§4.1 for the buffer,
§6 for the counter) and are embedded here as pure step functions, with the
testbench scenarios replayed against them.
-/

/-- One unit of data crossing an interface in one time step:
an opaque payload plus the end-of-packet marker (`tlast` in the testbench). -/
structure Transfer where
  payload : Nat
  is_last : Bool
deriving DecidableEq, Repr

/-- Modelled from the spec: the state of the elastic handshake buffer
(`axis_skid_buffer`, whose RTL is not part of the repository snapshot; only
its cocotb testbench is). `{primary: Option<Transfer>, skid: Option<Transfer>}`,
both `None` after reset. -/
structure BufState where
  primary : Option Transfer
  skid : Option Transfer
deriving DecidableEq, Repr

/-- The inputs the buffer samples on one discrete time step. -/
structure BufInputs where
  reset : Bool
  producer_valid : Bool
  producer_transfer : Transfer
  consumer_ready : Bool
deriving DecidableEq, Repr

/-- Producer-facing `ready` output: asserted iff the skid slot is unoccupied. -/
def BufState.producer_ready (s : BufState) : Bool :=
  s.skid.isNone

/-- Consumer-facing `valid` output: asserted iff the primary slot is occupied. -/
def BufState.consumer_valid (s : BufState) : Bool :=
  s.primary.isSome

/-- `consumer_accept = primary.is_some() && ready` (step 2 of the step semantics). -/
def consumer_accept (s : BufState) (i : BufInputs) : Bool :=
  s.primary.isSome && i.consumer_ready

/-- `producer_offer_accept = valid && producer_ready`, with
`producer_ready = skid.is_none()` evaluated on the pre-step occupancy
(step 3 of the step semantics). -/
def producer_offer_accept (s : BufState) (i : BufInputs) : Bool :=
  i.producer_valid && s.skid.isNone

/-- Modelled from the spec: the buffer's step function (§4.1, steps 1–4).
The RTL for `axis_skid_buffer` is absent from the snapshot, so the next-state
function is transcribed from the design document:
1. reset forces `(None, None)`;
2. `consumer_accept = primary.is_some() && ready`;
3. `producer_offer_accept = valid && skid.is_none()` (pre-step occupancy);
4. simultaneous slot update as written in the four cases of the document. -/
def step (s : BufState) (i : BufInputs) : BufState :=
  if i.reset then ⟨none, none⟩
  else
    let ca := consumer_accept s i
    let pa := producer_offer_accept s i
    if ca then
      if s.skid.isSome then
        ⟨s.skid, if pa then some i.producer_transfer else none⟩
      else
        ⟨if pa then some i.producer_transfer else none, none⟩
    else
      if s.primary.isNone then
        ⟨if pa then some i.producer_transfer else none, none⟩
      else
        ⟨s.primary, if pa then some i.producer_transfer else s.skid⟩

/-- The post-reset / initial state: both slots empty. -/
def emptyBuf : BufState := ⟨none, none⟩

/-- States reachable from the post-reset state by any sequence of inputs. -/
inductive Reachable : BufState → Prop
  | init : Reachable emptyBuf
  | next : ∀ s i, Reachable s → Reachable (step s i)

/-- The structural invariant: the skid slot is occupied only if the primary
slot is occupied (never skid-only). -/
def goodState (s : BufState) : Prop :=
  s.skid.isSome = true → s.primary.isSome = true

instance (s : BufState) : Decidable (goodState s) := by
  unfold goodState; infer_instance

lemma goodState_empty : goodState emptyBuf := by
  intro h; simp [emptyBuf] at h

/-- Every application of the step function preserves the structural invariant. -/
lemma goodState_step (s : BufState) (i : BufInputs) (hg : goodState s) :
    goodState (step s i) := by
  unfold goodState at *
  rcases s with ⟨p, k⟩
  rcases p with _ | tp <;> rcases k with _ | tk <;>
    simp_all [step, consumer_accept, producer_offer_accept] <;>
    split <;> simp_all <;> split <;> simp_all

/-- Every reachable state satisfies the structural invariant. -/
lemma reachable_good (s : BufState) (h : Reachable s) : goodState s := by
  induction h with
  | init => exact goodState_empty
  | next s i _ ih => exact goodState_step s i ih

/-- C7: a step with `reset` asserted yields the empty state from every state
and every other input, and on the resulting state the producer-facing `ready`
is asserted and the consumer-facing `valid` is deasserted; reset never fails
and no loss indication exists in the state. -/
theorem reset_forces_empty (s : BufState) (i : BufInputs) (hr : i.reset = true) :
    step s i = emptyBuf ∧
    (step s i).producer_ready = true ∧
    (step s i).consumer_valid = false := by
  simp [step, hr, emptyBuf, BufState.producer_ready, BufState.consumer_valid]

/-- Witness for C7 at a concrete fully-occupied state. -/
theorem reset_forces_empty_witness :
    step ⟨some ⟨1, true⟩, some ⟨2, false⟩⟩ ⟨true, true, ⟨3, false⟩, true⟩ = emptyBuf ∧
    (step ⟨some ⟨1, true⟩, some ⟨2, false⟩⟩ ⟨true, true, ⟨3, false⟩, true⟩).producer_ready = true ∧
    (step ⟨some ⟨1, true⟩, some ⟨2, false⟩⟩ ⟨true, true, ⟨3, false⟩, true⟩).consumer_valid = false :=
  reset_forces_empty _ _ rfl

/-- C5: on a non-reset step, the primary slot's content (payload and marker)
changes only if the consumer-facing accept fired this step
(`consumer.valid && consumer.ready`) or the primary slot was unoccupied at
step start; otherwise it is held unchanged. -/
theorem primary_frame (s : BufState) (i : BufInputs) (hr : i.reset = false)
    (hch : (step s i).primary ≠ s.primary) :
    (s.consumer_valid && i.consumer_ready) = true ∨ s.primary = none := by
  rcases s with ⟨p, k⟩
  rcases p with _ | tp
  · right; rfl
  · left
    by_contra hacc
    apply hch
    have hready : i.consumer_ready = false := by
      simpa [BufState.consumer_valid] using hacc
    simp [step, hr, consumer_accept, hready]

/-- Witness for C5: a concrete non-reset step where primary changes while the
consumer accept fired. -/
theorem primary_frame_witness :
    ((BufState.mk (some ⟨5, false⟩) none).consumer_valid && true) = true ∨
      (some ⟨5, false⟩ : Option Transfer) = none :=
  primary_frame ⟨some ⟨5, false⟩, none⟩ ⟨false, false, ⟨0, false⟩, true⟩ rfl (by decide)

/-- The transfers resident in the buffer, in delivery order (primary first). -/
def residents (s : BufState) : List Transfer :=
  s.primary.toList ++ s.skid.toList

/-- Placeholder transfer driven when the producer has nothing to offer. -/
def idleTransfer : Transfer := ⟨0, false⟩

/-- State of a closed-loop run: the buffer, the transfers the producer still
has to deliver (the head is re-offered every step until accepted), and the
transfers observed at the consumer interface so far, in order. -/
structure RunState where
  buf : BufState
  pending : List Transfer
  observed : List Transfer
deriving DecidableEq, Repr

/-- One step of the closed-loop run with consumer-ready value `r`: the
producer offers the head of `pending` (if any), which is accepted iff the
buffer's producer-facing ready (skid empty) holds; the consumer observes the
primary content on steps where `consumer.valid && consumer.ready` hold. -/
def driveStep (rs : RunState) (r : Bool) : RunState :=
  let obs := if r then rs.buf.primary.toList else []
  match rs.pending with
  | [] =>
      { buf := step rs.buf ⟨false, false, idleTransfer, r⟩
        pending := []
        observed := rs.observed ++ obs }
  | t :: rest =>
      { buf := step rs.buf ⟨false, true, t, r⟩
        pending := if rs.buf.skid.isNone then rest else t :: rest
        observed := rs.observed ++ obs }

/-- Iterate `driveStep` over a list of consumer-ready values, one per step. -/
def driveRun (rs : RunState) : List Bool → RunState
  | [] => rs
  | r :: rest => driveRun (driveStep rs r) rest

/-- Start of a closed-loop run: empty buffer, the full offered sequence
pending, nothing observed yet. -/
def initRun (offered : List Transfer) : RunState :=
  ⟨emptyBuf, offered, []⟩

/-- Single-step trace invariant: observed transfers, then resident transfers
(primary before skid), then pending transfers always spell out the offered
sequence; preserved together with the structural invariant. -/
lemma driveStep_trace (offered : List Transfer) (rs : RunState) (r : Bool)
    (hg : goodState rs.buf)
    (ht : rs.observed ++ residents rs.buf ++ rs.pending = offered) :
    goodState (driveStep rs r).buf ∧
    (driveStep rs r).observed ++ residents (driveStep rs r).buf ++
      (driveStep rs r).pending = offered := by
  rcases rs with ⟨⟨p, k⟩, pend, obs⟩
  rcases p with _ | tp <;> rcases k with _ | tk <;> rcases pend with _ | ⟨t, rest⟩ <;>
    rcases r with _ | _ <;>
    simp_all [driveStep, step, residents, goodState, consumer_accept,
      producer_offer_accept, emptyBuf]

/-- Multi-step trace invariant, by induction over the ready pattern. -/
lemma driveRun_trace (offered : List Transfer) (rs : RunState) (readies : List Bool)
    (hg : goodState rs.buf)
    (ht : rs.observed ++ residents rs.buf ++ rs.pending = offered) :
    goodState (driveRun rs readies).buf ∧
    (driveRun rs readies).observed ++ residents (driveRun rs readies).buf ++
      (driveRun rs readies).pending = offered := by
  induction readies generalizing rs with
  | nil => exact ⟨hg, ht⟩
  | cons r rest ih =>
      have h := driveStep_trace offered rs r hg ht
      exact ih _ h.1 h.2

/-- C1: lossless ordering. For every offered sequence (each transfer
re-offered until accepted) and every consumer-ready pattern, once the run has
drained (both slots empty and nothing left pending), the sequence observed at
the consumer interface equals the offered sequence: same payloads and markers,
same order, same count — no loss, duplication, or reordering. -/
theorem lossless_ordering (offered : List Transfer) (readies : List Bool)
    (hdrain : (driveRun (initRun offered) readies).buf = emptyBuf)
    (hpend : (driveRun (initRun offered) readies).pending = []) :
    (driveRun (initRun offered) readies).observed = offered := by
  have h := (driveRun_trace offered (initRun offered) readies goodState_empty
    (by simp [initRun, residents, emptyBuf])).2
  rw [hdrain, hpend] at h
  simpa [residents, emptyBuf] using h

/-- Witness for C1: three transfers against a stalling ready pattern. -/
theorem lossless_ordering_witness :
    (driveRun (initRun [⟨1, false⟩, ⟨2, false⟩, ⟨3, true⟩])
        [false, true, false, true, true]).observed
      = [⟨1, false⟩, ⟨2, false⟩, ⟨3, true⟩] :=
  lossless_ordering _ _ (by decide) (by decide)

/-- The run with the consumer always ready and a fresh transfer offered every
step, starting from the empty (post-reset) state. -/
def streamRun (f : Nat → Transfer) : Nat → BufState
  | 0 => emptyBuf
  | n + 1 => step (streamRun f n) ⟨false, true, f n, true⟩

/-- C2: zero-bubble throughput. With `consumer.ready` true every step and a
new transfer offered every step from empty, every step from one step after the
first offer has the primary slot holding exactly the previous step's fresh
transfer (so `consumer.valid && consumer.ready` holds and exactly one transfer
is accepted per step, with no idle steps). -/
theorem zero_bubble (f : Nat → Transfer) (n : Nat) (h : 1 ≤ n) :
    streamRun f n = ⟨some (f (n - 1)), none⟩ ∧
    ((streamRun f n).consumer_valid && true) = true := by
  have key : ∀ m, streamRun f (m + 1) = ⟨some (f m), none⟩ := by
    intro m
    induction m with
    | zero => simp [streamRun, step, emptyBuf, consumer_accept, producer_offer_accept]
    | succ k ih =>
        have hs : streamRun f (k + 1 + 1)
            = step (streamRun f (k + 1)) ⟨false, true, f (k + 1), true⟩ := rfl
        rw [hs, ih]
        simp [step, consumer_accept, producer_offer_accept]
  obtain ⟨m, rfl⟩ : ∃ m, n = m + 1 := ⟨n - 1, by omega⟩
  refine ⟨by simpa using key m, ?_⟩
  simp [key m, BufState.consumer_valid]

/-- Witness for C2 at the third step of a concrete stream. -/
theorem zero_bubble_witness :
    streamRun (fun k => ⟨k, false⟩) 3 = ⟨some ⟨2, false⟩, none⟩ ∧
    ((streamRun (fun k => ⟨k, false⟩) 3).consumer_valid && true) = true :=
  zero_bubble (fun k => ⟨k, false⟩) 3 (by decide)

/-- C4: the skid slot is occupied only if the primary slot is occupied: the
invariant is preserved by every application of the step function, and it holds
in every state reachable from the post-reset state. -/
theorem skid_only_with_primary (s s2 : BufState) (i : BufInputs)
    (hg : goodState s) (h2 : Reachable s2) :
    goodState (step s i) ∧ goodState s2 :=
  ⟨goodState_step s i hg, reachable_good s2 h2⟩

/-- Witness for C4 at the post-reset state and a concrete offer step. -/
theorem skid_only_with_primary_witness :
    goodState (step emptyBuf ⟨false, true, ⟨7, true⟩, false⟩) ∧ goodState emptyBuf :=
  skid_only_with_primary emptyBuf emptyBuf ⟨false, true, ⟨7, true⟩, false⟩
    (by decide) Reachable.init

/-- At most two transfers are ever resident in the two slots. -/
lemma residents_le_two (s : BufState) : (residents s).length ≤ 2 := by
  rcases s with ⟨p, k⟩
  rcases p with _ | tp <;> rcases k with _ | tk <;> simp [residents]

/-- With the consumer never ready, nothing is ever observed at the consumer
interface. -/
lemma driveRun_false_observed (rs : RunState) (n : Nat) :
    (driveRun rs (List.replicate n false)).observed = rs.observed := by
  induction n generalizing rs with
  | zero => rfl
  | succ m ih =>
      have hs : driveRun rs (List.replicate (m + 1) false)
          = driveRun (driveStep rs false) (List.replicate m false) := rfl
      rw [hs, ih]
      rcases rs with ⟨b, pend, obs⟩
      rcases pend with _ | ⟨t, rest⟩ <;> simp [driveStep]

/-- C3: the producer-facing ready output equals "skid slot unoccupied" for
every state; at most two transfers are ever resident; with the consumer never
ready, at most two transfers are accepted from the producer over any number of
steps; and a step on a state with both slots occupied, no reset and no
consumer accept leaves the state exactly unchanged (the rejected third offer
corrupts neither slot and ready stays false until the consumer accepts). -/
theorem backpressure_capacity (s s3 : BufState) (i : BufInputs)
    (offered : List Transfer) (n : Nat)
    (hg : goodState s3) (hk : s3.skid.isSome = true)
    (hr : i.reset = false) (hcr : i.consumer_ready = false) :
    s.producer_ready = s.skid.isNone ∧
    (residents s).length ≤ 2 ∧
    offered.length -
      ((driveRun (initRun offered) (List.replicate n false)).pending).length ≤ 2 ∧
    step s3 i = s3 := by
  refine ⟨rfl, residents_le_two s, ?_, ?_⟩
  · have h := driveRun_trace offered (initRun offered) (List.replicate n false)
      goodState_empty (by simp [initRun, residents, emptyBuf])
    have hobs : (driveRun (initRun offered) (List.replicate n false)).observed = [] := by
      rw [driveRun_false_observed]; rfl
    have hlen := congrArg List.length h.2
    rw [hobs] at hlen
    simp only [List.nil_append, List.length_append] at hlen
    have hres := residents_le_two (driveRun (initRun offered) (List.replicate n false)).buf
    omega
  · rcases s3 with ⟨p, k⟩
    rcases k with _ | tk
    · simp at hk
    · have hp := hg (by simp)
      rcases p with _ | tp
      · simp at hp
      · simp [step, hr, consumer_accept, hcr, producer_offer_accept]

/-- Witness for C3: a full buffer rejects a third offer unchanged, and the
capacity bound at a concrete three-transfer, consumer-stalled run. -/
theorem backpressure_capacity_witness :
    (BufState.mk (some ⟨1, false⟩) none).producer_ready
        = (BufState.mk (some ⟨1, false⟩) none).skid.isNone ∧
    (residents ⟨some ⟨1, false⟩, none⟩).length ≤ 2 ∧
    ([⟨1, false⟩, ⟨2, false⟩, ⟨3, false⟩] : List Transfer).length -
      ((driveRun (initRun [⟨1, false⟩, ⟨2, false⟩, ⟨3, false⟩])
          (List.replicate 6 false)).pending).length ≤ 2 ∧
    step ⟨some ⟨1, false⟩, some ⟨2, false⟩⟩ ⟨false, true, ⟨3, false⟩, false⟩
      = ⟨some ⟨1, false⟩, some ⟨2, false⟩⟩ :=
  backpressure_capacity ⟨some ⟨1, false⟩, none⟩ ⟨some ⟨1, false⟩, some ⟨2, false⟩⟩
    ⟨false, true, ⟨3, false⟩, false⟩ [⟨1, false⟩, ⟨2, false⟩, ⟨3, false⟩] 6
    (by decide) (by decide) rfl rfl

/-- An element of the left part of an append, read through the appended list. -/
lemma get_of_append_eq {α : Type} (l₁ l₂ l : List α) (heq : l₁ ++ l₂ = l) (j : Nat)
    (h : j < l₁.length) (h2 : j < l.length) : l.get ⟨j, h2⟩ = l₁.get ⟨j, h⟩ := by
  subst heq
  simp only [List.get_eq_getElem]
  exact List.getElem_append_left h

/-- C6: marker fidelity. In any closed-loop run, every transfer delivered at
the consumer interface carries exactly the end-of-packet marker it was
accepted with at the producer interface, whatever the ready pattern and
however long it was held in either slot. -/
theorem marker_fidelity (offered : List Transfer) (readies : List Bool) (j : Nat)
    (h : j < ((driveRun (initRun offered) readies).observed).length)
    (h2 : j < offered.length) :
    (((driveRun (initRun offered) readies).observed).get ⟨j, h⟩).is_last
      = (offered.get ⟨j, h2⟩).is_last := by
  have htr := (driveRun_trace offered (initRun offered) readies goodState_empty
    (by simp [initRun, residents, emptyBuf])).2
  rw [List.append_assoc] at htr
  rw [get_of_append_eq _ _ _ htr j h h2]

/-- Witness for C6: the marker of the first delivered transfer of a concrete
run equals the marker it was offered with. -/
theorem marker_fidelity_witness :
    (((driveRun (initRun [⟨4, true⟩, ⟨5, false⟩]) [true, true, true]).observed).get
        ⟨0, by decide⟩).is_last
      = (([⟨4, true⟩, ⟨5, false⟩] : List Transfer).get ⟨0, by decide⟩).is_last :=
  marker_fidelity [⟨4, true⟩, ⟨5, false⟩] [true, true, true] 0 (by decide) (by decide)

/-- States of the concrete backpressure scenario replayed from
`test_axis_output_backpressure`: consumer ready held false, then released. -/
def bpS1 : BufState := step emptyBuf ⟨false, true, ⟨0xAA, false⟩, false⟩

/-- Second scenario step: offer `0xBB` with the consumer still stalled. -/
def bpS2 : BufState := step bpS1 ⟨false, true, ⟨0xBB, false⟩, false⟩

/-- Third scenario step: offer `0xCC` with both slots full. -/
def bpS3 : BufState := step bpS2 ⟨false, true, ⟨0xCC, false⟩, false⟩

/-- Fourth scenario step: consumer ready released, `0xCC` still offered. -/
def bpS4 : BufState := step bpS3 ⟨false, true, ⟨0xCC, false⟩, true⟩

/-- Fifth scenario step: `0xCC` re-offered and now accepted. -/
def bpS5 : BufState := step bpS4 ⟨false, true, ⟨0xCC, false⟩, true⟩

/-- Sixth scenario step: producer idle, consumer drains the last transfer. -/
def bpS6 : BufState := step bpS5 ⟨false, false, idleTransfer, true⟩

/-- C8: the concrete backpressure scenario. `0xAA` is accepted with ready
staying true, `0xBB` is accepted into the skid with ready then false, `0xCC`
is rejected with the state unchanged; once the consumer becomes ready the
accepted output is `0xAA`, ready rises again, `0xCC` is accepted, and the
consumer then observes `0xBB` and finally `0xCC`. -/
theorem backpressure_scenario :
    emptyBuf.producer_ready = true ∧
    bpS1 = ⟨some ⟨0xAA, false⟩, none⟩ ∧ bpS1.producer_ready = true ∧
    bpS2 = ⟨some ⟨0xAA, false⟩, some ⟨0xBB, false⟩⟩ ∧ bpS2.producer_ready = false ∧
    bpS3 = bpS2 ∧ bpS3.producer_ready = false ∧
    bpS3.primary = some ⟨0xAA, false⟩ ∧
    bpS4 = ⟨some ⟨0xBB, false⟩, none⟩ ∧ bpS4.producer_ready = true ∧
    bpS5 = ⟨some ⟨0xCC, false⟩, none⟩ ∧
    bpS6 = emptyBuf := by
  decide

/-- Modelled from the spec: the synchronous counter's architectural state
(`count` register and the one-step `overflow` pulse); the counter RTL is
absent from the repository snapshot, only its cocotb testbench is present. -/
structure CounterState where
  count : Nat
  overflow : Bool
deriving DecidableEq, Repr

/-- Modelled from the spec (§6): the counter step function. If `reset` then
`count' = 0, overflow' = 0`; else if `enable` then
`count' = (count + 1) mod 2^W` and `overflow'` is asserted iff
`count = 2^W - 1` this step; else `count' = count, overflow' = 0`. -/
def counterStep (W : Nat) (s : CounterState) (reset enable : Bool) : CounterState :=
  if reset then ⟨0, false⟩
  else if enable then ⟨(s.count + 1) % 2 ^ W, decide (s.count = 2 ^ W - 1)⟩
  else ⟨s.count, false⟩

/-- The counter trace after reset with `enable` held high every step. -/
def counterTrace (W : Nat) : Nat → CounterState
  | 0 => ⟨0, false⟩
  | n + 1 => counterStep W (counterTrace W n) false true

/-- The overflow flags over `n` enabled steps starting from `s`. -/
def overflowFlags (W : Nat) (s : CounterState) : Nat → List Bool
  | 0 => []
  | n + 1 =>
      let s2 := counterStep W s false true
      s2.overflow :: overflowFlags W s2 n

set_option maxRecDepth 4000 in
/-- C9: the counter step function: reset forces count and overflow to zero,
an enabled step increments modulo `2^W` with overflow asserted exactly when
the count was `2^W - 1`, and a disabled step holds the count with overflow
clear; concretely at `W = 8`, 256 enabled steps after reset pulse overflow
exactly once, on the step the count wraps from 255 to 0. -/
theorem counter_step_spec (W : Nat) (s : CounterState) (e : Bool) :
    counterStep W s true e = ⟨0, false⟩ ∧
    counterStep W s false true
      = ⟨(s.count + 1) % 2 ^ W, decide (s.count = 2 ^ W - 1)⟩ ∧
    counterStep W s false false = ⟨s.count, false⟩ ∧
    overflowFlags 8 ⟨0, false⟩ 256 = List.replicate 255 false ++ [true] ∧
    (counterTrace 8 255).count = 255 ∧ (counterTrace 8 256).count = 0 ∧
    (counterTrace 8 256).overflow = true := by
  refine ⟨by simp [counterStep], rfl, rfl, by decide, by decide, by decide, by decide⟩

/-- The drain input: producer idle, consumer ready, no reset. -/
def drainInput : BufInputs := ⟨false, false, idleTransfer, true⟩

/-- C10: drain. From any reachable state, two steps with the producer idle and
the consumer ready empty both slots; the empty state persists under any
further non-reset step with no offer, with `consumer.valid` false and
`producer.ready` true there. -/
theorem drain_in_two_steps (s : BufState) (i : BufInputs) (h : Reachable s)
    (hr : i.reset = false) (hv : i.producer_valid = false) :
    step (step s drainInput) drainInput = emptyBuf ∧
    step emptyBuf i = emptyBuf ∧
    emptyBuf.consumer_valid = false ∧ emptyBuf.producer_ready = true := by
  have hg := reachable_good s h
  refine ⟨?_, ?_, rfl, rfl⟩
  · rcases s with ⟨p, k⟩
    rcases p with _ | tp <;> rcases k with _ | tk <;>
      simp_all [goodState, step, drainInput, consumer_accept, producer_offer_accept,
        emptyBuf]
  · simp [step, hr, hv, consumer_accept, producer_offer_accept, emptyBuf]

/-- Witness for C10 at the post-reset state and a concrete idle step. -/
theorem drain_in_two_steps_witness :
    step (step emptyBuf drainInput) drainInput = emptyBuf ∧
    step emptyBuf ⟨false, false, idleTransfer, false⟩ = emptyBuf ∧
    emptyBuf.consumer_valid = false ∧ emptyBuf.producer_ready = true :=
  drain_in_two_steps emptyBuf ⟨false, false, idleTransfer, false⟩ Reachable.init rfl rfl
